import Mathlib

/-!
Verification development for the `vfs` upload/publish pipeline (vfs.go).

Go strings are modelled as `List Char` (`GoStr`), byte streams as `List Nat`
(`Bytes`), and the filesystem as an association list of paths to contents
plus a list of created directories.  Fallible filesystem operations are
driven by explicit environments of boolean outcomes so that every control
path of the Go code is represented.
-/

set_option autoImplicit false

abbrev GoStr := List Char
abbrev Bytes := List Nat

/-! ### Go path lexicals: `path.Clean`, `filepath.Join`, `filepath.Dir`, `filepath.Ext` -/

/-- Split a path on `'/'` separators (inverse of joining with `"/"`). -/
def splitSlash : GoStr → List GoStr
  | [] => [[]]
  | c :: cs =>
    if c = '/' then [] :: splitSlash cs
    else
      match splitSlash cs with
      | [] => [[c]]
      | p :: ps => (c :: p) :: ps

/-- Go strings.Join of path elements with separator `"/"`. -/
def joinSegs : List GoStr → GoStr
  | [] => []
  | [e] => e
  | e :: es => e ++ '/' :: joinSegs es

/-- The element-stack processing of Go `path.Clean`: empty and `"."`
elements are dropped, `".."` pops a previous element (or is kept when
nothing can be popped and the path is not rooted, or dropped at the root). -/
def cleanCore (rooted : Bool) : List GoStr → List GoStr → List GoStr
  | stack, [] => stack.reverse
  | stack, e :: es =>
    if e = [] ∨ e = ['.'] then cleanCore rooted stack es
    else if e = ['.', '.'] then
      match stack with
      | [] => if rooted then cleanCore rooted [] es else cleanCore rooted [e] es
      | t :: rest =>
        if t = ['.', '.'] then
          if rooted then cleanCore rooted (t :: rest) es else cleanCore rooted (e :: t :: rest) es
        else cleanCore rooted rest es
    else cleanCore rooted (e :: stack) es

/-- Go `path.Clean` (equal to `filepath.Clean` on a slash-separated platform). -/
def goClean (s : GoStr) : GoStr :=
  match s with
  | [] => ['.']
  | c :: cs =>
    let rooted : Bool := c == '/'
    let elems := cleanCore rooted [] (splitSlash (c :: cs))
    let out := (if rooted then ['/'] else []) ++ joinSegs elems
    if out = [] then (if rooted then ['/'] else ['.']) else out

/-- Go `filepath.Join`: skip leading empty elements, join the rest with
`"/"` and `Clean` the result; all elements empty gives `""`. -/
def goFilepathJoin (elems : List GoStr) : GoStr :=
  let rest := elems.dropWhile (fun e => e.isEmpty)
  if rest = [] then [] else goClean (joinSegs rest)

/-- Go `filepath.Dir`: everything up to the final separator, `Clean`ed
(`"."` when the path holds no separator). -/
def goDirPath (s : GoStr) : GoStr :=
  goClean ((s.reverse.dropWhile (fun c => ¬ c = '/')).reverse)

/-- Go `filepath.Ext`: the suffix starting at the final dot of the last
path element, empty when that element holds no dot.  The argument is the
reversed path and `acc` collects the characters already passed. -/
def goExtAux (acc : GoStr) : GoStr → GoStr
  | [] => []
  | c :: rest =>
    if c = '/' then []
    else if c = '.' then '.' :: acc
    else goExtAux (c :: acc) rest

def goExt (s : GoStr) : GoStr := goExtAux [] s.reverse

/-- Does `p` start the string `s`? (Go `strings.HasPrefix`.) -/
def strStarts : GoStr → GoStr → Bool
  | [], _ => true
  | _ :: _, [] => false
  | p :: ps, c :: cs => p = c && strStarts ps cs

/-- Go `strings.TrimPrefix p` applied to `s`. -/
def goTrimPre (s p : GoStr) : GoStr :=
  if strStarts p s then s.drop p.length else s

/-- Go `strings.TrimSuffix p` applied to `s`. -/
def goTrimSuf (s p : GoStr) : GoStr :=
  if strStarts p.reverse s.reverse then s.take (s.length - p.length) else s

/-- Decimal digits of a natural number (Go `fmt.Sprintf "%d"`), with
structural fuel so the definition reduces in the kernel. -/
def natCharsAux : Nat → Nat → GoStr → GoStr
  | 0, _, acc => acc
  | fuel + 1, n, acc =>
    if n < 10 then Char.ofNat (48 + n) :: acc
    else natCharsAux fuel (n / 10) (Char.ofNat (48 + n % 10) :: acc)

def natChars (n : Nat) : GoStr := natCharsAux (n + 1) n []

/-! ### The modelled filesystem -/

structure FS where
  files : List (GoStr × Bytes)
  dirs : List GoStr
deriving DecidableEq

def fsLookup (p : GoStr) : List (GoStr × Bytes) → Option Bytes
  | [] => none
  | (q, c) :: rest => if q = p then some c else fsLookup p rest

def fsSetFiles (p : GoStr) (b : Bytes) : List (GoStr × Bytes) → List (GoStr × Bytes)
  | [] => [(p, b)]
  | (q, c) :: rest => if q = p then (p, b) :: rest else (q, c) :: fsSetFiles p b rest

def fsDelete (p : GoStr) : List (GoStr × Bytes) → List (GoStr × Bytes)
  | [] => []
  | (q, c) :: rest => if q = p then rest else (q, c) :: fsDelete p rest

/-! ### Constants, `FileHash` and `Config` (vfs.go lines 32-74) -/

def DefaultHashExtension : GoStr := ['j', 'p', 'g']

def NamespacePublic : GoStr := []

abbrev FileHash := GoStr

/-- The method FileHash.Dir: `string(h[0]) + "/" + string(h[1:3])`.  Go indexes the
string without a length check, so the operation is modelled as `none`
(a panic) whenever the hash holds fewer than 3 bytes. -/
def FileHash.Dir : FileHash → Option GoStr
  | c0 :: c1 :: c2 :: _ => some (c0 :: '/' :: [c1, c2])
  | _ => none

/-- The method FileHash.File: `filepath.Join(h.Dir(), string(h)) + "." + DefaultHashExtension`. -/
def FileHash.File (h : FileHash) : Option GoStr :=
  (FileHash.Dir h).map (fun d => goFilepathJoin [d, h] ++ '.' :: DefaultHashExtension)

structure Config where
  maxFileSize : Int
  path : GoStr
  webPath : GoStr
  namespaces : List GoStr
  uploadFormName : GoStr
  saltedFilenames : Bool
deriving DecidableEq

/-- The loop of `IsValidNamespace` over `cfg.Namespaces`. -/
def nsListed (ns : GoStr) : List GoStr → Bool
  | [] => false
  | n :: rest => if n = ns then true else nsListed ns rest

/-- The method VFS.IsValidNamespace: the public (empty) namespace is always valid,
any other namespace must appear in the configured list. -/
def IsValidNamespace (cfg : Config) (ns : GoStr) : Bool :=
  if ns = NamespacePublic then true else nsListed ns cfg.namespaces

/-- The method VFS.Path: `filepath.Join(v.cfg.Path, ns, path)`. -/
def vfsPath (cfg : Config) (ns p : GoStr) : GoStr :=
  goFilepathJoin [cfg.path, ns, p]

/-- The method VFS.FullDir. -/
def FullDir (cfg : Config) (ns : GoStr) (h : FileHash) : GoStr :=
  vfsPath cfg ns ((FileHash.Dir h).getD [])

/-- The method VFS.FullFile. -/
def FullFile (cfg : Config) (ns : GoStr) (h : FileHash) : GoStr :=
  vfsPath cfg ns ((FileHash.File h).getD [])

/-- The method VFS.WebHashPath: `path.Join(v.cfg.WebPath, ns, h.File())`. -/
def WebHashPath (cfg : Config) (ns : GoStr) (h : FileHash) : GoStr :=
  goFilepathJoin [cfg.webPath, ns, (FileHash.File h).getD []]

/-! ### MD5 (`crypto/md5` + `encoding/hex`), over bytes as `Nat` mod 256
with 32-bit words as `Nat` mod 2^32 -/

def w32 (n : Nat) : Nat := n % 4294967296

def wadd (a b : Nat) : Nat := w32 (a + b)

def wnot (a : Nat) : Nat := 4294967295 - w32 a

def rotl (x s : Nat) : Nat :=
  (w32 x % 2 ^ (32 - s)) * 2 ^ s + w32 x / 2 ^ (32 - s)

def md5F (b c d : Nat) : Nat := Nat.lor (Nat.land b c) (Nat.land (wnot b) d)

def md5G (b c d : Nat) : Nat := Nat.lor (Nat.land d b) (Nat.land (wnot d) c)

def md5H (b c d : Nat) : Nat := Nat.xor b (Nat.xor c d)

def md5I (b c d : Nat) : Nat := Nat.xor c (Nat.lor b (wnot d))

def md5K : List Nat :=
  [0xd76aa478, 0xe8c7b756, 0x242070db, 0xc1bdceee,
   0xf57c0faf, 0x4787c62a, 0xa8304613, 0xfd469501,
   0x698098d8, 0x8b44f7af, 0xffff5bb1, 0x895cd7be,
   0x6b901122, 0xfd987193, 0xa679438e, 0x49b40821,
   0xf61e2562, 0xc040b340, 0x265e5a51, 0xe9b6c7aa,
   0xd62f105d, 0x02441453, 0xd8a1e681, 0xe7d3fbc8,
   0x21e1cde6, 0xc33707d6, 0xf4d50d87, 0x455a14ed,
   0xa9e3e905, 0xfcefa3f8, 0x676f02d9, 0x8d2a4c8a,
   0xfffa3942, 0x8771f681, 0x6d9d6122, 0xfde5380c,
   0xa4beea44, 0x4bdecfa9, 0xf6bb4b60, 0xbebfbc70,
   0x289b7ec6, 0xeaa127fa, 0xd4ef3085, 0x04881d05,
   0xd9d4d039, 0xe6db99e5, 0x1fa27cf8, 0xc4ac5665,
   0xf4292244, 0x432aff97, 0xab9423a7, 0xfc93a039,
   0x655b59c3, 0x8f0ccc92, 0xffeff47d, 0x85845dd1,
   0x6fa87e4f, 0xfe2ce6e0, 0xa3014314, 0x4e0811a1,
   0xf7537e82, 0xbd3af235, 0x2ad7d2bb, 0xeb86d391]

def md5S : List Nat :=
  [7, 12, 17, 22, 7, 12, 17, 22, 7, 12, 17, 22, 7, 12, 17, 22,
   5, 9, 14, 20, 5, 9, 14, 20, 5, 9, 14, 20, 5, 9, 14, 20,
   4, 11, 16, 23, 4, 11, 16, 23, 4, 11, 16, 23, 4, 11, 16, 23,
   6, 10, 15, 21, 6, 10, 15, 21, 6, 10, 15, 21, 6, 10, 15, 21]

def md5Mix (i b c d : Nat) : Nat :=
  if i < 16 then md5F b c d
  else if i < 32 then md5G b c d
  else if i < 48 then md5H b c d
  else md5I b c d

def md5MsgIdx (i : Nat) : Nat :=
  if i < 16 then i
  else if i < 32 then (5 * i + 1) % 16
  else if i < 48 then (3 * i + 5) % 16
  else (7 * i) % 16

abbrev Md5St := Nat × Nat × Nat × Nat

def md5Op (m : List Nat) (st : Md5St) (i : Nat) : Md5St :=
  let (a, b, c, d) := st
  let f := wadd (wadd (wadd a (md5Mix i b c d)) (md5K.getD i 0)) (m.getD (md5MsgIdx i) 0)
  (d, wadd b (rotl f (md5S.getD i 0)), b, c)

/-- Group a byte list into little-endian 32-bit words. -/
def leWords : List Nat → List Nat
  | b0 :: b1 :: b2 :: b3 :: rest =>
    (b0 % 256 + 256 * (b1 % 256) + 65536 * (b2 % 256) + 16777216 * (b3 % 256)) :: leWords rest
  | _ => []

def md5Block (st : Md5St) (block : List Nat) : Md5St :=
  let m := leWords block
  let (a, b, c, d) := (List.range 64).foldl (md5Op m) st
  let (a0, b0, c0, d0) := st
  (wadd a0 a, wadd b0 b, wadd c0 c, wadd d0 d)

def splitBlocks : Nat → List Nat → List (List Nat)
  | 0, _ => []
  | n + 1, bytes => bytes.take 64 :: splitBlocks n (bytes.drop 64)

def le8Bytes (n : Nat) : List Nat :=
  [n % 256, n / 256 % 256, n / 65536 % 256, n / 16777216 % 256,
   n / 4294967296 % 256, n / 1099511627776 % 256,
   n / 281474976710656 % 256, n / 72057594037927936 % 256]

/-- MD5 padding: a `0x80` byte, zeros to 56 mod 64, then the bit length
as a 64-bit little-endian quantity. -/
def md5Pad (msg : Bytes) : Bytes :=
  let len := msg.length
  let zeros := (119 - len % 64) % 64
  msg ++ 128 :: List.replicate zeros 0 ++ le8Bytes ((8 * len) % 18446744073709551616)

def le4Bytes (n : Nat) : List Nat :=
  [n % 256, n / 256 % 256, n / 65536 % 256, n / 16777216 % 256]

/-- The 16-byte MD5 digest of a byte sequence (`md5.New` / `Sum`). -/
def md5Bytes (msg : Bytes) : List Nat :=
  let padded := md5Pad msg
  let st := (splitBlocks (padded.length / 64) padded).foldl md5Block
    (0x67452301, 0xefcdab89, 0x98badcfe, 0x10325476)
  le4Bytes st.1 ++ le4Bytes st.2.1 ++ le4Bytes st.2.2.1 ++ le4Bytes st.2.2.2

def hexDigit (n : Nat) : Char :=
  if n < 10 then Char.ofNat (48 + n) else Char.ofNat (87 + n)

def hexByte (b : Nat) : GoStr := [hexDigit (b / 16 % 16), hexDigit (b % 16)]

/-- Lowercase hex of the digest: `hex.EncodeToString(hash.Sum(nil)[:16])`. -/
def md5Hex (msg : Bytes) : GoStr := ((md5Bytes msg).map hexByte).flatten

/-! ### Errors and event traces -/

/-- The distinct error values an operation can fail with.  Each constructor
stands for the error returned by one fallible call site of vfs.go. -/
inductive GoError
  | invalidNamespace
  | tempCreateErr
  | syncErr
  | copyErr
  | mkdirErr
  | renameErr
  | closeErr
  | removeErr
  | parseFormErr
  | formFileErr
  | sizeExceeded
  | plainMkdirErr
  | plainCreateErr
  | plainCopyErr
  | plainSyncErr
  | nextIDErr
  | moveMkdirErr
  | moveRenameErr
  | addFileErr
deriving DecidableEq

/-- Filesystem events, in the order the operations were invoked.
`tempCreate/syncT/copyT/mkdirT/renameT/closeT/removeT` belong to
`HashUpload`, `mkdirP/createP/copyP/syncP` to the plain `Upload`. -/
inductive Ev
  | tempCreate
  | syncT
  | copyT
  | mkdirT
  | renameT
  | closeT
  | removeT
  | mkdirP
  | createP
  | copyP
  | syncP
deriving DecidableEq

/-! ### `VFS.HashUpload` (vfs.go lines 108-166) -/

/-- Outcomes of the fallible calls inside one `HashUpload` run: whether
each operation succeeds, the random part of the temp-file name, and how
many bytes `io.Copy` managed before a copy failure. -/
structure HUEnv where
  tempOk : Bool
  tempSuffix : GoStr
  syncOk : Bool
  copyOk : Bool
  copiedN : Nat
  mkdirOk : Bool
  renameOk : Bool
  closeOk : Bool
  removeOk : Bool
deriving DecidableEq

structure HURes where
  fh : FileHash
  err : Option GoError
  fs : FS
  trace : List Ev
deriving DecidableEq

/-- The deferred close-and-cleanup block of `HashUpload` (lines 121-135):
close the file, report the close error only when no earlier error exists
(returning early in that case), then delete the temp file when it was not
published, reporting the delete error only when no earlier error exists. -/
def hashUploadFinish (env : HUEnv) (tempFilename : GoStr) (deleteTempFile : Bool)
    (fh0 : FileHash) (err0 : Option GoError) (fs : FS) (trace : List Ev) : HURes :=
  let fErr : Option GoError := if env.closeOk then none else some .closeErr
  if err0 = none ∧ fErr ≠ none then
    ⟨fh0, fErr, fs, trace ++ [Ev.closeT]⟩
  else if deleteTempFile then
    let rErr : Option GoError := if env.removeOk then none else some .removeErr
    let fs' := if env.removeOk then { fs with files := fsDelete tempFilename fs.files } else fs
    ⟨fh0, if err0 = none ∧ rErr ≠ none then rErr else err0, fs', trace ++ [Ev.closeT, Ev.removeT]⟩
  else
    ⟨fh0, err0, fs, trace ++ [Ev.closeT]⟩

/-- The method VFS.HashUpload: validate the namespace, create a temp file in the
storage root, `Sync` it, stream-copy the input into the digest and the
temp file at once, create the sharded directory, rename the temp file
onto the content-addressed destination; the deferred block closes the
file and removes it unless it was published. -/
def HashUpload (cfg : Config) (content : Bytes) (ns : GoStr) (env : HUEnv) (fs : FS) : HURes :=
  if ¬ IsValidNamespace cfg ns then ⟨[], some .invalidNamespace, fs, []⟩
  else if ¬ env.tempOk then ⟨[], some .tempCreateErr, fs, [Ev.tempCreate]⟩
  else
    let tempFilename := goFilepathJoin [cfg.path, 'v' :: 'f' :: 's' :: env.tempSuffix]
    let fs0 : FS := { fs with files := fsSetFiles tempFilename [] fs.files }
    if ¬ env.syncOk then
      hashUploadFinish env tempFilename true [] (some .syncErr) fs0
        [Ev.tempCreate, Ev.syncT]
    else if ¬ env.copyOk then
      let fs1 : FS := { fs0 with files := fsSetFiles tempFilename (content.take env.copiedN) fs0.files }
      hashUploadFinish env tempFilename true [] (some .copyErr) fs1
        [Ev.tempCreate, Ev.syncT, Ev.copyT]
    else
      let fs1 : FS := { fs0 with files := fsSetFiles tempFilename content fs0.files }
      let hashHex := md5Hex content
      if ¬ env.mkdirOk then
        hashUploadFinish env tempFilename true [] (some .mkdirErr) fs1
          [Ev.tempCreate, Ev.syncT, Ev.copyT, Ev.mkdirT]
      else
        let fs2 : FS := { fs1 with dirs := FullDir cfg ns hashHex :: fs1.dirs }
        if ¬ env.renameOk then
          hashUploadFinish env tempFilename true [] (some .renameErr) fs2
            [Ev.tempCreate, Ev.syncT, Ev.copyT, Ev.mkdirT, Ev.renameT]
        else
          let dst := FullFile cfg ns hashHex
          let fs3 : FS := { fs2 with
            files := fsSetFiles dst ((fsLookup tempFilename fs2.files).getD []) (fsDelete tempFilename fs2.files) }
          hashUploadFinish env tempFilename false hashHex none fs3
            [Ev.tempCreate, Ev.syncT, Ev.copyT, Ev.mkdirT, Ev.renameT]

/-! ### `VFS.Upload` and `VFS.Move` (vfs.go lines 76-106) -/

/-- Outcomes of the fallible calls inside one plain `Upload` run. -/
structure PlainEnv where
  mkdirOk : Bool
  createOk : Bool
  copyOk : Bool
  copiedN : Nat
  syncOk : Bool
deriving DecidableEq

/-- The method VFS.Upload: make the parent directories, create the destination
file, stream-copy into it (a failed copy leaves a partial file), `Sync`. -/
def Upload (cfg : Config) (content : Bytes) (relFilename ns : GoStr) (env : PlainEnv) (fs : FS) :
    Option GoError × FS × List Ev :=
  let target := goFilepathJoin [cfg.path, ns, relFilename]
  let fileDir := goDirPath target
  if ¬ env.mkdirOk then (some .plainMkdirErr, fs, [Ev.mkdirP])
  else
    let fs1 : FS := { fs with dirs := fileDir :: fs.dirs }
    if ¬ env.createOk then (some .plainCreateErr, fs1, [Ev.mkdirP, Ev.createP])
    else
      let fs2 : FS := { fs1 with files := fsSetFiles target [] fs1.files }
      if ¬ env.copyOk then
        (some .plainCopyErr,
         { fs2 with files := fsSetFiles target (content.take env.copiedN) fs2.files },
         [Ev.mkdirP, Ev.createP, Ev.copyP])
      else
        let fs3 : FS := { fs2 with files := fsSetFiles target content fs2.files }
        if ¬ env.syncOk then (some .plainSyncErr, fs3, [Ev.mkdirP, Ev.createP, Ev.copyP, Ev.syncP])
        else (none, fs3, [Ev.mkdirP, Ev.createP, Ev.copyP, Ev.syncP])

/-- The method VFS.Move: make the new path's parent directories, then rename. -/
def Move (cfg : Config) (ns currentPath newPath : GoStr) (mkdirOk renameOk : Bool) (fs : FS) :
    Option GoError × FS :=
  let curP := vfsPath cfg ns currentPath
  let newP := vfsPath cfg ns newPath
  if ¬ mkdirOk then (some .moveMkdirErr, fs)
  else
    let fs1 : FS := { fs with dirs := goDirPath newP :: fs.dirs }
    if ¬ renameOk then (some .moveRenameErr, fs1)
    else
      (none, { fs1 with
        files := fsSetFiles newP ((fsLookup curP fs1.files).getD []) (fsDelete curP fs1.files) })

/-! ### `VFS.uploadFile` (vfs.go lines 202-276) -/

inductive GoMethod
  | put
  | post
  | other
deriving DecidableEq

/-- Outcome of `ParseMultipartForm` and `FormFile` for a POST request:
whether each succeeds, and the declared size, original filename and bytes
of the form file. -/
structure MultipartData where
  parseOk : Bool
  formFileOk : Bool
  size : Int
  filename : GoStr
  content : Bytes
deriving DecidableEq

structure Request where
  method : GoMethod
  contentLength : Int
  body : Bytes
  mp : MultipartData
deriving DecidableEq

/-- The UploadResponse struct; zero values mirror the Go struct literal defaults. -/
structure UploadResponse where
  code : Nat
  error : Option GoError := none
  hash : GoStr := []
  webPath : GoStr := []
  fileID : Nat := 0
  extension : GoStr := []
  name : GoStr := []
deriving DecidableEq

/-- Body of `uploadFile` after request classification: the size gate, then
either the plain upload (non-empty `vfsFilename`) or the hash upload. -/
def uploadFileCore (cfg : Config) (content : Bytes) (fileSize : Int) (ext name ns vfsFilename : GoStr)
    (huEnv : HUEnv) (plEnv : PlainEnv) (fs : FS) : UploadResponse × FS × List Ev :=
  if fileSize > cfg.maxFileSize then
    ({ code := 413, error := some .sizeExceeded }, fs, [])
  else if vfsFilename ≠ [] then
    match Upload cfg content vfsFilename ns plEnv fs with
    | (some e, fs', tr) => ({ code := 400, error := some e }, fs', tr)
    | (none, fs', tr) => ({ code := 200, extension := ext, name := name }, fs', tr)
  else
    let r := HashUpload cfg content ns huEnv fs
    match r.err with
    | some e => ({ code := 400, error := some e }, r.fs, r.trace)
    | none => ({ code := 200, hash := r.fh, webPath := WebHashPath cfg ns r.fh }, r.fs, r.trace)

/-- The method VFS.uploadFile: a PUT takes the body and the transport content
length; a POST parses the multipart form (500 on parse failure, 400 on a
missing form file) and splits the original filename into base name and
extension; then the common core runs. -/
def uploadFile (cfg : Config) (req : Request) (ns vfsFilename : GoStr)
    (huEnv : HUEnv) (plEnv : PlainEnv) (fs : FS) : UploadResponse × FS × List Ev :=
  match req.method with
  | .put => uploadFileCore cfg req.body req.contentLength [] [] ns vfsFilename huEnv plEnv fs
  | .post =>
    if ¬ req.mp.parseOk then ({ code := 500, error := some .parseFormErr }, fs, [])
    else if ¬ req.mp.formFileOk then ({ code := 400, error := some .formFileErr }, fs, [])
    else
      let ext := goTrimPre (goExt req.mp.filename) ['.']
      let name := goTrimSuf req.mp.filename (goExt req.mp.filename)
      uploadFileCore cfg req.mp.content req.mp.size ext name ns vfsFilename huEnv plEnv fs
  | .other => uploadFileCore cfg [] 0 [] [] ns vfsFilename huEnv plEnv fs

/-! ### `VFS.createFile` (vfs.go lines 326-399) -/

/-- The `db.VfsFile` record as constructed by `createFile`.  `StatusID`
is always `db.StatusEnabled`, modelled as a boolean flag; `CreatedAt` is
the clock value supplied by the environment. -/
structure VfsFile where
  id : Nat
  folderID : Nat
  title : GoStr
  path : GoStr
  params : Option (Nat × Nat)
  mimeType : GoStr
  fileSize : Nat
  fileExists : Bool
  statusEnabled : Bool
  createdAt : Nat
deriving DecidableEq

/-- Outcomes of the fallible calls inside one `createFile` run:
`os.Open`, `image.DecodeConfig` (decoded height and width, or `none` on a
decode error), `Stat`, `Seek`, `mimetype.DetectReader` (the sniffed type,
or `none` on a sniff error), `repo.NextFileID`, the random salt, the
current year-month, the two steps of `Move`, `repo.AddVfsFile`, and the
clock. -/
structure CreateEnv where
  openOk : Bool
  decodeDims : Option (Nat × Nat)
  statOk : Bool
  seekOk : Bool
  mimeOut : Option GoStr
  nextID : Option Nat
  saltSeq : GoStr
  yearMonth : GoStr
  moveMkdirOk : Bool
  moveRenameOk : Bool
  addOk : Bool
  now : Nat
deriving DecidableEq

structure CreateRes where
  id : Nat
  err : Option GoError
  fs : FS
  record : Option VfsFile
deriving DecidableEq

/-- The method VFS.createFile: best-effort metadata extraction (image dimensions,
byte size via `Stat`, MIME type — every failure there is swallowed and the
corresponding field keeps its zero value), then ID allocation, final
filename composition `<folderID>_<id><salt>.<ext>` under the current
year-month directory, the move of the temp file, and record insertion.
Only `NextFileID`, `Move` and `AddVfsFile` failures abort. -/
def createFile (cfg : Config) (folderID : Nat) (ns relFilename name ext : GoStr)
    (env : CreateEnv) (fs : FS) : CreateRes :=
  let srcPath := vfsPath cfg ns relFilename
  let params := if env.openOk then env.decodeDims else none
  let fsz := if env.openOk ∧ env.statOk then ((fsLookup srcPath fs.files).getD []).length else 0
  let mType := if env.openOk ∧ env.seekOk then env.mimeOut.getD [] else []
  match env.nextID with
  | none => ⟨0, some .nextIDErr, fs, none⟩
  | some id =>
    let salt := if cfg.saltedFilenames then '_' :: env.saltSeq else []
    let filename := natChars folderID ++ '_' :: (natChars id ++ salt ++ '.' :: ext)
    let rel := goFilepathJoin [env.yearMonth, filename]
    match Move cfg ns relFilename rel env.moveMkdirOk env.moveRenameOk fs with
    | (some e, fs') => ⟨0, some e, fs', none⟩
    | (none, fs') =>
      let vf : VfsFile :=
        ⟨id, folderID, name, rel, params, mType, fsz, true, true, env.now⟩
      if env.addOk then ⟨id, none, fs', some vf⟩
      else ⟨0, some .addFileErr, fs', none⟩

/-! ### Lemmas about the path lexicals -/

theorem splitSlash_no_sep : ∀ (xs : GoStr), (∀ c ∈ xs, c ≠ '/') → splitSlash xs = [xs]
  | [], _ => rfl
  | c :: cs, hx => by
    have hc : ¬ c = '/' := hx c (List.mem_cons_self c cs)
    have ih := splitSlash_no_sep cs (fun d hd => hx d (List.mem_cons_of_mem c hd))
    simp [splitSlash, hc, ih]

theorem splitSlash_append_sep : ∀ (xs ys : GoStr), (∀ c ∈ xs, c ≠ '/') →
    splitSlash (xs ++ '/' :: ys) = xs :: splitSlash ys
  | [], ys, _ => by simp [splitSlash]
  | c :: cs, ys, hx => by
    have hc : ¬ c = '/' := hx c (List.mem_cons_self c cs)
    have ih := splitSlash_append_sep cs ys (fun d hd => hx d (List.mem_cons_of_mem c hd))
    simp [splitSlash, hc, ih]

theorem joinSegs_cons (e : GoStr) (es : List GoStr) (hne : es ≠ []) :
    joinSegs (e :: es) = e ++ '/' :: joinSegs es := by
  cases es with
  | nil => exact absurd rfl hne
  | cons f fs => rfl

theorem splitSlash_joinSegs : ∀ (es : List GoStr), es ≠ [] →
    (∀ e ∈ es, ∀ c ∈ e, c ≠ '/') → splitSlash (joinSegs es) = es
  | [], hne, _ => absurd rfl hne
  | [e], _, hn => by
    simpa [joinSegs] using splitSlash_no_sep e (hn e (List.mem_singleton_self e))
  | e :: f :: es, _, hn => by
    have ih := splitSlash_joinSegs (f :: es) (List.cons_ne_nil f es)
      (fun d hd => hn d (List.mem_cons_of_mem e hd))
    rw [joinSegs_cons e (f :: es) (List.cons_ne_nil f es),
      splitSlash_append_sep e _ (hn e (List.mem_cons_self e _)), ih]

/-- A path element that `Clean` passes through unchanged: non-empty, not
`"."`, not `".."`, holding no separator. -/
def plainSeg (e : GoStr) : Prop :=
  e ≠ [] ∧ e ≠ ['.'] ∧ e ≠ ['.', '.'] ∧ ∀ c ∈ e, c ≠ '/'

theorem cleanCore_plain (r : Bool) : ∀ (es stack : List GoStr),
    (∀ e ∈ es, plainSeg e) → cleanCore r stack es = stack.reverse ++ es
  | [], stack, _ => by simp [cleanCore]
  | e :: es, stack, hp => by
    obtain ⟨h1, h2, h3, _⟩ := hp e (List.mem_cons_self e es)
    have ih := cleanCore_plain r es (e :: stack) (fun d hd => hp d (List.mem_cons_of_mem e hd))
    simp [cleanCore, h1, h2, h3, ih]

theorem goClean_plain (es : List GoStr) (hne : es ≠ []) (hp : ∀ e ∈ es, plainSeg e) :
    goClean (joinSegs es) = joinSegs es := by
  obtain ⟨e, rest, rfl⟩ := List.exists_cons_of_ne_nil hne
  obtain ⟨he1, he2, he3, he4⟩ := hp e (List.mem_cons_self e rest)
  obtain ⟨c, cs, rfl⟩ := List.exists_cons_of_ne_nil he1
  have hc : c ≠ '/' := he4 c (List.mem_cons_self c cs)
  have hsplit : splitSlash (joinSegs ((c :: cs) :: rest)) = (c :: cs) :: rest :=
    splitSlash_joinSegs _ (List.cons_ne_nil _ _) (fun d hd => (hp d hd).2.2.2)
  have hcore : cleanCore false [] ((c :: cs) :: rest) = (c :: cs) :: rest :=
    cleanCore_plain false _ [] hp
  obtain ⟨t, ht⟩ : ∃ t, joinSegs ((c :: cs) :: rest) = c :: t := by
    cases rest with
    | nil => exact ⟨cs, rfl⟩
    | cons f fs => exact ⟨cs ++ '/' :: joinSegs (f :: fs), rfl⟩
  rw [ht] at hsplit ⊢
  have hrt : (c == '/') = false := by simp [hc]
  simp only [goClean, hrt, hsplit, hcore, Bool.false_eq_true, if_false, List.nil_append]
  rw [← ht]
  simp [joinSegs_cons, ht]

theorem goFilepathJoin_pair (a b : GoStr) (ha : plainSeg a) (hb : plainSeg b) :
    goFilepathJoin [a, b] = a ++ '/' :: b := by
  obtain ⟨c, cs, rfl⟩ := List.exists_cons_of_ne_nil ha.1
  have h := goClean_plain [c :: cs, b] (List.cons_ne_nil _ _)
    (by
      intro e he
      rcases List.mem_cons.mp he with rfl | he'
      · exact ha
      · rcases List.mem_cons.mp he' with rfl | he''
        · exact hb
        · cases he'')
  simpa [goFilepathJoin, List.dropWhile, joinSegs] using h

/-! ### Valid content hashes -/

/-- A lowercase hexadecimal digit, as produced by `hex.EncodeToString`. -/
def isLowerHexDigit (c : Char) : Bool :=
  (('0' ≤ c) && (c ≤ '9')) || (('a' ≤ c) && (c ≤ 'f'))

/-- A valid `ContentHash`: 32 lowercase hexadecimal characters (the hex
encoding of a 16-byte MD5 digest). -/
def validHash (h : FileHash) : Prop :=
  h.length = 32 ∧ ∀ c ∈ h, isLowerHexDigit c = true

theorem lowerHex_ne_slash {c : Char} (h : isLowerHexDigit c = true) : c ≠ '/' := by
  intro he
  subst he
  exact absurd h (by decide)

theorem lowerHex_ne_dot {c : Char} (h : isLowerHexDigit c = true) : c ≠ '.' := by
  intro he
  subst he
  exact absurd h (by decide)

/-- Claim C4: for every valid hash `h`, `FileHash.Dir` yields the sharded
directory `h[0] + "/" + h[1:3]` and `FileHash.File` yields
`Dir(h) + "/" + h + "." + DefaultHashExtension`, where the extension is
the single process-wide constant; both are pure computations. -/
theorem storagePath_sharding (h : FileHash) (hv : validHash h) :
    FileHash.Dir h = some (h.take 1 ++ '/' :: (h.drop 1).take 2) ∧
    FileHash.File h =
      some ((h.take 1 ++ '/' :: (h.drop 1).take 2) ++ '/' :: (h ++ '.' :: DefaultHashExtension)) := by
  obtain ⟨hlen, hhex⟩ := hv
  match h, hlen with
  | c0 :: c1 :: c2 :: t, _ =>
    have h0 : isLowerHexDigit c0 = true := hhex c0 (by simp)
    have h1 : isLowerHexDigit c1 = true := hhex c1 (by simp)
    have hplain : ∀ e ∈ [[c0], [c1, c2], c0 :: c1 :: c2 :: t], plainSeg e := by
      intro e he
      rcases List.mem_cons.mp he with rfl | he'
      · exact ⟨by simp, by simp [lowerHex_ne_dot h0], by simp, by
          intro c hc
          rcases List.mem_singleton.mp hc with rfl
          exact lowerHex_ne_slash h0⟩
      rcases List.mem_cons.mp he' with rfl | he''
      · exact ⟨by simp, by simp, by simp [lowerHex_ne_dot h1], by
          intro c hc
          rcases List.mem_cons.mp hc with rfl | hc'
          · exact lowerHex_ne_slash h1
          · rcases List.mem_singleton.mp hc' with rfl
            exact lowerHex_ne_slash (hhex c (by simp))⟩
      rcases List.mem_cons.mp he'' with rfl | he'''
      · exact ⟨by simp, by simp [lowerHex_ne_dot h0], by simp [lowerHex_ne_dot h0], by
          intro c hc
          exact lowerHex_ne_slash (hhex c hc)⟩
      · cases he'''
    have hclean := goClean_plain [[c0], [c1, c2], c0 :: c1 :: c2 :: t]
      (List.cons_ne_nil _ _) hplain
    constructor
    · rfl
    · show some (goFilepathJoin [[c0, '/', c1, c2], c0 :: c1 :: c2 :: t] ++
          '.' :: DefaultHashExtension) = _
      have hjoin : goFilepathJoin [c0 :: '/' :: [c1, c2], c0 :: c1 :: c2 :: t] =
          c0 :: '/' :: c1 :: c2 :: '/' :: (c0 :: c1 :: c2 :: t) := by
        show goClean (joinSegs [c0 :: '/' :: [c1, c2], c0 :: c1 :: c2 :: t]) = _
        have heq : joinSegs [c0 :: '/' :: [c1, c2], c0 :: c1 :: c2 :: t] =
            joinSegs [[c0], [c1, c2], c0 :: c1 :: c2 :: t] := rfl
        rw [heq, hclean]
        rfl
      rw [hjoin]
      rfl

/-- Claim C10: `FileHash.Dir` and `FileHash.File` index the hash at byte
positions 0 through 2 with no length check: they are defined exactly when
the hash holds at least 3 bytes, and undefined (a Go panic, modelled as
`none`) for every shorter hash including the empty one. -/
theorem fileHash_requires_three_bytes (h : FileHash) :
    (3 ≤ h.length → (FileHash.Dir h).isSome ∧ (FileHash.File h).isSome) ∧
    (h.length < 3 → FileHash.Dir h = none ∧ FileHash.File h = none) := by
  rcases h with _ | ⟨a, _ | ⟨b, _ | ⟨c, t⟩⟩⟩ <;>
    simp [FileHash.Dir, FileHash.File]

/-- Witness for C10 at the concrete hashes `"ab"` (too short: undefined)
and `"abcd"` (long enough: defined). -/
theorem fileHash_requires_three_bytes_spot :
    (FileHash.Dir ['a', 'b'] = none ∧ FileHash.File ['a', 'b'] = none) ∧
    ((FileHash.Dir ['a', 'b', 'c', 'd']).isSome ∧ (FileHash.File ['a', 'b', 'c', 'd']).isSome) :=
  ⟨(fileHash_requires_three_bytes ['a', 'b']).2 (by decide),
   (fileHash_requires_three_bytes ['a', 'b', 'c', 'd']).1 (by decide)⟩

/-- Witness for C4 at the MD5 hash of the empty input. -/
theorem storagePath_sharding_spot :
    FileHash.Dir ('d' :: '4' :: '1' :: 'd' :: '8' :: 'c' :: 'd' :: '9' :: '8' :: 'f' :: '0' :: '0' :: 'b' :: '2' :: '0' :: '4' :: 'e' :: '9' :: '8' :: '0' :: '0' :: '9' :: '9' :: '8' :: 'e' :: 'c' :: 'f' :: '8' :: '4' :: '2' :: '7' :: 'e' :: []) =
      some (['d'] ++ '/' :: ['4', '1']) ∧
    FileHash.File ('d' :: '4' :: '1' :: 'd' :: '8' :: 'c' :: 'd' :: '9' :: '8' :: 'f' :: '0' :: '0' :: 'b' :: '2' :: '0' :: '4' :: 'e' :: '9' :: '8' :: '0' :: '0' :: '9' :: '9' :: '8' :: 'e' :: 'c' :: 'f' :: '8' :: '4' :: '2' :: '7' :: 'e' :: []) =
      some ((['d'] ++ '/' :: ['4', '1']) ++ '/' ::
        (('d' :: '4' :: '1' :: 'd' :: '8' :: 'c' :: 'd' :: '9' :: '8' :: 'f' :: '0' :: '0' :: 'b' :: '2' :: '0' :: '4' :: 'e' :: '9' :: '8' :: '0' :: '0' :: '9' :: '9' :: '8' :: 'e' :: 'c' :: 'f' :: '8' :: '4' :: '2' :: '7' :: 'e' :: []) ++ '.' :: DefaultHashExtension)) :=
  storagePath_sharding _ ⟨by decide, by decide⟩

/-! ### Lemmas about the filesystem model -/

theorem fsLookup_set (p : GoStr) (b : Bytes) :
    ∀ l : List (GoStr × Bytes), fsLookup p (fsSetFiles p b l) = some b
  | [] => by simp [fsSetFiles, fsLookup]
  | (q, c) :: rest => by
    by_cases h : q = p <;> simp [fsSetFiles, fsLookup, h, fsLookup_set p b rest]

/-! ### Claims about `HashUpload` -/

/-- Claim C6: a `HashUpload` with a namespace that is neither the public
(empty) one nor configured fails with the validation error before any
I/O: the result is the error alone, the filesystem is untouched (no
destination file, no temp file) and no filesystem operation was invoked. -/
theorem hashUpload_invalid_namespace (cfg : Config) (content : Bytes) (ns : GoStr)
    (env : HUEnv) (fs : FS) (hne : ns ≠ []) (hnl : nsListed ns cfg.namespaces = false) :
    HashUpload cfg content ns env fs = ⟨[], some .invalidNamespace, fs, []⟩ := by
  have hv : IsValidNamespace cfg ns = false := by
    simp [IsValidNamespace, NamespacePublic, hne, hnl]
  simp [HashUpload, hv]

/-- Witness for C6: the namespace `"q"` against a configuration listing
only `"p"`. -/
theorem hashUpload_invalid_namespace_spot :
    HashUpload ⟨100, ['r'], ['w'], [['p']], ['f'], false⟩ [1, 2] ['q']
        ⟨true, ['x'], true, true, 0, true, true, true, true⟩ ⟨[], []⟩ =
      ⟨[], some .invalidNamespace, ⟨[], []⟩, []⟩ :=
  hashUpload_invalid_namespace _ _ _ _ _ (by decide) (by decide)

/-- Claim C7: whenever a `HashUpload` fails after the temp file was
created, the deferred cleanup deletes the temp file (`removeT` is
invoked), and the error returned is the first failure of the run —
whatever the outcomes of the deferred `Close` and `Remove`, their errors
never mask the original cause. -/
theorem hashUpload_first_error_wins (cfg : Config) (content : Bytes) (ns : GoStr)
    (env : HUEnv) (fs : FS) (hns : IsValidNamespace cfg ns = true) (ht : env.tempOk = true)
    (hfail : env.syncOk = false ∨ env.copyOk = false ∨ env.mkdirOk = false ∨
      env.renameOk = false) :
    Ev.removeT ∈ (HashUpload cfg content ns env fs).trace ∧
    (HashUpload cfg content ns env fs).err = some (
      if env.syncOk = false then GoError.syncErr
      else if env.copyOk = false then GoError.copyErr
      else if env.mkdirOk = false then GoError.mkdirErr
      else GoError.renameErr) := by
  obtain ⟨tempOk, tsuf, syncOk, copyOk, copiedN, mkdirOk, renameOk, closeOk, removeOk⟩ := env
  simp only at ht hfail ⊢
  subst ht
  cases syncOk <;> cases copyOk <;> cases mkdirOk <;> cases renameOk <;>
    cases closeOk <;> cases removeOk <;>
    simp_all [HashUpload, hashUploadFinish, hns]

/-- Witness for C7: a run where `MkdirAll` fails and both deferred
`Close` and `Remove` fail as well; the reported error is still the mkdir
failure. -/
theorem hashUpload_first_error_wins_spot :
    Ev.removeT ∈ (HashUpload ⟨100, ['r'], ['w'], [], ['f'], false⟩ [1, 2] []
        ⟨true, ['x'], true, true, 0, false, true, false, false⟩ ⟨[], []⟩).trace ∧
    (HashUpload ⟨100, ['r'], ['w'], [], ['f'], false⟩ [1, 2] []
        ⟨true, ['x'], true, true, 0, false, true, false, false⟩ ⟨[], []⟩).err =
      some GoError.mkdirErr :=
  hashUpload_first_error_wins _ _ _ _ _ (by decide) (by decide) (by decide)

/-- Claim C5: `HashUpload` is deterministic in the content: two successful
runs on the same bytes under any two valid namespaces, any failure
environments and any starting filesystems return the same hash — the MD5
hex digest of the bytes — and hence the same namespace-relative storage
path. -/
theorem hashUpload_deterministic (cfg : Config) (content : Bytes) (ns₁ ns₂ : GoStr)
    (env₁ env₂ : HUEnv) (fs₁ fs₂ : FS)
    (h₁ : IsValidNamespace cfg ns₁ = true) (h₂ : IsValidNamespace cfg ns₂ = true)
    (e₁ : env₁.tempOk = true ∧ env₁.syncOk = true ∧ env₁.copyOk = true ∧
      env₁.mkdirOk = true ∧ env₁.renameOk = true)
    (e₂ : env₂.tempOk = true ∧ env₂.syncOk = true ∧ env₂.copyOk = true ∧
      env₂.mkdirOk = true ∧ env₂.renameOk = true) :
    (HashUpload cfg content ns₁ env₁ fs₁).fh = (HashUpload cfg content ns₂ env₂ fs₂).fh ∧
    (HashUpload cfg content ns₁ env₁ fs₁).fh = md5Hex content ∧
    FileHash.File (HashUpload cfg content ns₁ env₁ fs₁).fh =
      FileHash.File (HashUpload cfg content ns₂ env₂ fs₂).fh := by
  have key : ∀ (ns : GoStr) (env : HUEnv) (fs : FS), IsValidNamespace cfg ns = true →
      env.tempOk = true ∧ env.syncOk = true ∧ env.copyOk = true ∧
        env.mkdirOk = true ∧ env.renameOk = true →
      (HashUpload cfg content ns env fs).fh = md5Hex content := by
    intro ns env fs hv he
    obtain ⟨tempOk, tsuf, syncOk, copyOk, copiedN, mkdirOk, renameOk, closeOk, removeOk⟩ := env
    simp only at he
    obtain ⟨rfl, rfl, rfl, rfl, rfl⟩ := he
    cases closeOk <;> simp [HashUpload, hashUploadFinish, hv]
  refine ⟨?_, key ns₁ env₁ fs₁ h₁ e₁, ?_⟩
  · rw [key ns₁ env₁ fs₁ h₁ e₁, key ns₂ env₂ fs₂ h₂ e₂]
  · rw [key ns₁ env₁ fs₁ h₁ e₁, key ns₂ env₂ fs₂ h₂ e₂]

/-- Witness for C5: the bytes `[97]` published under the public namespace
and under the configured namespace `"p"`, with different temp names and
starting filesystems. -/
theorem hashUpload_deterministic_spot :
    (HashUpload ⟨100, ['r'], ['w'], [['p']], ['f'], false⟩ [97] []
        ⟨true, ['x'], true, true, 0, true, true, true, true⟩ ⟨[], []⟩).fh =
      (HashUpload ⟨100, ['r'], ['w'], [['p']], ['f'], false⟩ [97] ['p']
        ⟨true, ['y'], true, true, 0, true, true, false, true⟩ ⟨[(['z'], [5])], []⟩).fh ∧
    (HashUpload ⟨100, ['r'], ['w'], [['p']], ['f'], false⟩ [97] []
        ⟨true, ['x'], true, true, 0, true, true, true, true⟩ ⟨[], []⟩).fh = md5Hex [97] ∧
    FileHash.File (HashUpload ⟨100, ['r'], ['w'], [['p']], ['f'], false⟩ [97] []
        ⟨true, ['x'], true, true, 0, true, true, true, true⟩ ⟨[], []⟩).fh =
      FileHash.File (HashUpload ⟨100, ['r'], ['w'], [['p']], ['f'], false⟩ [97] ['p']
        ⟨true, ['y'], true, true, 0, true, true, false, true⟩ ⟨[(['z'], [5])], []⟩).fh :=
  hashUpload_deterministic _ _ _ _ _ _ _ _ (by decide) (by decide)
    (by exact ⟨rfl, rfl, rfl, rfl, rfl⟩) (by exact ⟨rfl, rfl, rfl, rfl, rfl⟩)

/-- Claim C1 (refuted, code bug): in a fully successful `HashUpload` run
the i/o trace is temp-create, `Sync`, copy, mkdir, rename, close — the
`Sync` is invoked on the freshly created, still empty temp file BEFORE
the stream copy writes any byte, and no fsync happens after the copy, so
the copy does not complete before the fsync as the specification orders
(only fsync-before-rename holds, vacuously of an empty file). -/
theorem hashUpload_sync_precedes_copy :
    (HashUpload ⟨100, ['r'], ['w'], [], ['f'], false⟩ [1, 2] []
        ⟨true, ['x'], true, true, 0, true, true, true, true⟩ ⟨[], []⟩).err = none ∧
    (HashUpload ⟨100, ['r'], ['w'], [], ['f'], false⟩ [1, 2] []
        ⟨true, ['x'], true, true, 0, true, true, true, true⟩ ⟨[], []⟩).trace =
      [Ev.tempCreate, Ev.syncT, Ev.copyT, Ev.mkdirT, Ev.renameT, Ev.closeT] ∧
    (HashUpload ⟨100, ['r'], ['w'], [], ['f'], false⟩ [1, 2] []
        ⟨true, ['x'], true, true, 0, true, true, true, true⟩ ⟨[], []⟩).trace.indexOf Ev.syncT <
      (HashUpload ⟨100, ['r'], ['w'], [], ['f'], false⟩ [1, 2] []
        ⟨true, ['x'], true, true, 0, true, true, true, true⟩ ⟨[], []⟩).trace.indexOf Ev.copyT := by
  refine ⟨?_, ?_, ?_⟩ <;> decide

/-! ### Claims about `uploadFile` -/

/-- Claim C8: any upload request whose declared size (transport content
length for PUT, multipart handler size for POST) exceeds the configured
maximum is answered with the distinct 413 outcome while the filesystem is
untouched and no uploader operation — neither the plain `Upload` nor
`HashUpload` — was invoked. -/
theorem uploadFile_oversize_rejected (cfg : Config) (req : Request) (ns vfsFilename : GoStr)
    (huEnv : HUEnv) (plEnv : PlainEnv) (fs : FS)
    (h : (req.method = GoMethod.put ∧ req.contentLength > cfg.maxFileSize) ∨
      (req.method = GoMethod.post ∧ req.mp.parseOk = true ∧ req.mp.formFileOk = true ∧
        req.mp.size > cfg.maxFileSize)) :
    uploadFile cfg req ns vfsFilename huEnv plEnv fs =
      ({ code := 413, error := some .sizeExceeded }, fs, []) := by
  obtain ⟨m, cl, body, mp⟩ := req
  rcases h with ⟨hm, hs⟩ | ⟨hm, hp, hf, hs⟩ <;> simp only at hm hs <;> subst hm
  · simp [uploadFile, uploadFileCore, hs]
  · simp only at hp hf
    simp [uploadFile, uploadFileCore, hp, hf, hs]

/-- Witness for C8: a PUT declaring 200 bytes against a 100-byte limit. -/
theorem uploadFile_oversize_rejected_spot :
    uploadFile ⟨100, ['r'], ['w'], [], ['f'], false⟩ ⟨.put, 200, [1], ⟨true, true, 0, [], []⟩⟩
        [] [] ⟨true, ['x'], true, true, 0, true, true, true, true⟩ ⟨true, true, true, 0, true⟩
        ⟨[], []⟩ =
      ({ code := 413, error := some .sizeExceeded }, (⟨[], []⟩ : FS), []) :=
  uploadFile_oversize_rejected _ _ _ _ _ _ _ (Or.inl ⟨rfl, by decide⟩)

/-- Claim C3 (refuted): an I/O failure inside the content-addressed
publish — here the stream copy into the temp file fails — is surfaced by
`uploadFile` with HTTP status 400, not 500 as the specification states. -/
theorem uploadFile_io_error_maps_to_400 :
    (uploadFile ⟨100, ['r'], ['w'], [], ['f'], false⟩ ⟨.put, 3, [1, 2, 3], ⟨true, true, 0, [], []⟩⟩
        [] [] ⟨true, ['x'], true, false, 0, true, true, true, true⟩ ⟨true, true, true, 0, true⟩
        ⟨[], []⟩).1.code = 400 ∧
    (uploadFile ⟨100, ['r'], ['w'], [], ['f'], false⟩ ⟨.put, 3, [1, 2, 3], ⟨true, true, 0, [], []⟩⟩
        [] [] ⟨true, ['x'], true, false, 0, true, true, true, true⟩ ⟨true, true, true, 0, true⟩
        ⟨[], []⟩).1.error = some GoError.copyErr ∧
    ¬ (uploadFile ⟨100, ['r'], ['w'], [], ['f'], false⟩ ⟨.put, 3, [1, 2, 3], ⟨true, true, 0, [], []⟩⟩
        [] [] ⟨true, ['x'], true, false, 0, true, true, true, true⟩ ⟨true, true, true, 0, true⟩
        ⟨[], []⟩).1.code = 500 := by
  refine ⟨?_, ?_, ?_⟩ <;> decide

/-- Helper: the common upload core answers with status 413, 400 or 200,
never 500. -/
theorem uploadFileCore_code_cases (cfg : Config) (content : Bytes) (fileSize : Int)
    (ext name ns vfsFilename : GoStr) (huEnv : HUEnv) (plEnv : PlainEnv) (fs : FS) :
    (uploadFileCore cfg content fileSize ext name ns vfsFilename huEnv plEnv fs).1.code = 413 ∨
    (uploadFileCore cfg content fileSize ext name ns vfsFilename huEnv plEnv fs).1.code = 400 ∨
    (uploadFileCore cfg content fileSize ext name ns vfsFilename huEnv plEnv fs).1.code = 200 := by
  by_cases hs : fileSize > cfg.maxFileSize
  · exact Or.inl (by simp [uploadFileCore, hs])
  by_cases hv : vfsFilename = []
  · subst hv
    cases he : (HashUpload cfg content ns huEnv fs).err with
    | some e => exact Or.inr (Or.inl (by simp [uploadFileCore, hs, he]))
    | none => exact Or.inr (Or.inr (by simp [uploadFileCore, hs, he]))
  · cases he : Upload cfg content vfsFilename ns plEnv fs with
    | mk e rest =>
      obtain ⟨fs', tr⟩ := rest
      cases e with
      | some e' => exact Or.inr (Or.inl (by simp [uploadFileCore, hs, hv, he]))
      | none => exact Or.inr (Or.inr (by simp [uploadFileCore, hs, hv, he]))

/-- Claim C3 as amended: for every upload request, an oversized declared
size maps to 413; within the size limit, every failure of the delegated
`HashUpload` (I/O errors included) and every failure of the plain
`Upload` maps to 400, for PUT and POST requests alike, and an invalid
namespace also maps to 400 carrying the validation error; status 500
arises only from a POST request whose multipart parse fails, carrying the
parse error. -/
theorem uploadFile_status_mapping (cfg : Config) (req : Request) (ns vfsFilename : GoStr)
    (huEnv : HUEnv) (plEnv : PlainEnv) (fs : FS) :
    (req.method = GoMethod.put → req.contentLength > cfg.maxFileSize →
      (uploadFile cfg req ns vfsFilename huEnv plEnv fs).1.code = 413) ∧
    (req.method = GoMethod.put → ¬ req.contentLength > cfg.maxFileSize → vfsFilename = [] →
      (HashUpload cfg req.body ns huEnv fs).err ≠ none →
      (uploadFile cfg req ns vfsFilename huEnv plEnv fs).1.code = 400) ∧
    (req.method = GoMethod.put → ¬ req.contentLength > cfg.maxFileSize → vfsFilename ≠ [] →
      (Upload cfg req.body vfsFilename ns plEnv fs).1 ≠ none →
      (uploadFile cfg req ns vfsFilename huEnv plEnv fs).1.code = 400) ∧
    (req.method = GoMethod.post → req.mp.parseOk = true → req.mp.formFileOk = true →
      req.mp.size > cfg.maxFileSize →
      (uploadFile cfg req ns vfsFilename huEnv plEnv fs).1.code = 413) ∧
    (req.method = GoMethod.post → req.mp.parseOk = true → req.mp.formFileOk = true →
      ¬ req.mp.size > cfg.maxFileSize → vfsFilename = [] →
      (HashUpload cfg req.mp.content ns huEnv fs).err ≠ none →
      (uploadFile cfg req ns vfsFilename huEnv plEnv fs).1.code = 400) ∧
    (req.method = GoMethod.post → req.mp.parseOk = true → req.mp.formFileOk = true →
      ¬ req.mp.size > cfg.maxFileSize → vfsFilename ≠ [] →
      (Upload cfg req.mp.content vfsFilename ns plEnv fs).1 ≠ none →
      (uploadFile cfg req ns vfsFilename huEnv plEnv fs).1.code = 400) ∧
    (req.method = GoMethod.put → ¬ req.contentLength > cfg.maxFileSize → vfsFilename = [] →
      IsValidNamespace cfg ns = false →
      (uploadFile cfg req ns vfsFilename huEnv plEnv fs).1.code = 400 ∧
      (uploadFile cfg req ns vfsFilename huEnv plEnv fs).1.error = some .invalidNamespace) ∧
    (req.method = GoMethod.post → req.mp.parseOk = true → req.mp.formFileOk = true →
      ¬ req.mp.size > cfg.maxFileSize → vfsFilename = [] →
      IsValidNamespace cfg ns = false →
      (uploadFile cfg req ns vfsFilename huEnv plEnv fs).1.code = 400 ∧
      (uploadFile cfg req ns vfsFilename huEnv plEnv fs).1.error = some .invalidNamespace) ∧
    ((uploadFile cfg req ns vfsFilename huEnv plEnv fs).1.code = 500 →
      req.method = GoMethod.post ∧ req.mp.parseOk = false ∧
      (uploadFile cfg req ns vfsFilename huEnv plEnv fs).1.error = some .parseFormErr) := by
  have hcore400h : ∀ (content : Bytes) (fileSize : Int) (ext name : GoStr),
      ¬ fileSize > cfg.maxFileSize → vfsFilename = [] →
      (HashUpload cfg content ns huEnv fs).err ≠ none →
      (uploadFileCore cfg content fileSize ext name ns vfsFilename huEnv plEnv fs).1.code =
        400 := by
    intro content fileSize ext name hs hv herr
    subst hv
    cases he : (HashUpload cfg content ns huEnv fs).err with
    | none => exact absurd he herr
    | some e => simp [uploadFileCore, hs, he]
  have hcore400p : ∀ (content : Bytes) (fileSize : Int) (ext name : GoStr),
      ¬ fileSize > cfg.maxFileSize → vfsFilename ≠ [] →
      (Upload cfg content vfsFilename ns plEnv fs).1 ≠ none →
      (uploadFileCore cfg content fileSize ext name ns vfsFilename huEnv plEnv fs).1.code =
        400 := by
    intro content fileSize ext name hs hv herr
    cases he : Upload cfg content vfsFilename ns plEnv fs with
    | mk e rest =>
      cases e with
      | none => exact absurd (by rw [he]) herr
      | some e' =>
        obtain ⟨fs', tr⟩ := rest
        simp [uploadFileCore, hs, hv, he]
  have hcorens : ∀ (content : Bytes) (fileSize : Int) (ext name : GoStr),
      ¬ fileSize > cfg.maxFileSize → vfsFilename = [] → IsValidNamespace cfg ns = false →
      (uploadFileCore cfg content fileSize ext name ns vfsFilename huEnv plEnv fs).1.code =
          400 ∧
      (uploadFileCore cfg content fileSize ext name ns vfsFilename huEnv plEnv fs).1.error =
          some .invalidNamespace := by
    intro content fileSize ext name hs hv hns
    subst hv
    have herr : (HashUpload cfg content ns huEnv fs).err = some .invalidNamespace := by
      simp [HashUpload, hns]
    constructor <;> simp [uploadFileCore, hs, herr]
  obtain ⟨m, cl, body, mp⟩ := req
  obtain ⟨pOk, fOk, sz, fname, fcontent⟩ := mp
  dsimp only
  cases m with
  | put =>
    refine ⟨?_, ?_, ?_, ?_, ?_, ?_, ?_, ?_, ?_⟩
    · intro _ hs
      simp [uploadFile, uploadFileCore, hs]
    · intro _ hs hv herr
      exact hcore400h body cl [] [] hs hv herr
    · intro _ hs hv herr
      exact hcore400p body cl [] [] hs hv herr
    · intro hpm
      exact absurd hpm (by decide)
    · intro hpm
      exact absurd hpm (by decide)
    · intro hpm
      exact absurd hpm (by decide)
    · intro _ hs hv hns
      exact hcorens body cl [] [] hs hv hns
    · intro hpm
      exact absurd hpm (by decide)
    · intro h500
      have h5 : (uploadFileCore cfg body cl [] [] ns vfsFilename huEnv plEnv fs).1.code = 500 :=
        h500
      rcases uploadFileCore_code_cases cfg body cl [] [] ns vfsFilename huEnv plEnv fs
        with h | h | h <;> rw [h5] at h <;> exact absurd h (by decide)
  | post =>
    refine ⟨?_, ?_, ?_, ?_, ?_, ?_, ?_, ?_, ?_⟩
    · intro hpm
      exact absurd hpm (by decide)
    · intro hpm
      exact absurd hpm (by decide)
    · intro hpm
      exact absurd hpm (by decide)
    · intro _ hp hf hs
      subst hp
      subst hf
      simp [uploadFile, uploadFileCore, hs]
    · intro _ hp hf hs hv herr
      subst hp
      subst hf
      exact hcore400h fcontent sz _ _ hs hv herr
    · intro _ hp hf hs hv herr
      subst hp
      subst hf
      exact hcore400p fcontent sz _ _ hs hv herr
    · intro hpm
      exact absurd hpm (by decide)
    · intro _ hp hf hs hv hns
      subst hp
      subst hf
      exact hcorens fcontent sz _ _ hs hv hns
    · intro h500
      cases pOk with
      | false => exact ⟨rfl, rfl, rfl⟩
      | true =>
        cases fOk with
        | false => exact absurd (show (400 : Nat) = 500 from h500) (by decide)
        | true =>
          have h5 : (uploadFileCore cfg fcontent sz (goTrimPre (goExt fname) ['.'])
              (goTrimSuf fname (goExt fname)) ns vfsFilename huEnv plEnv fs).1.code = 500 :=
            h500
          rcases uploadFileCore_code_cases cfg fcontent sz (goTrimPre (goExt fname) ['.'])
              (goTrimSuf fname (goExt fname)) ns vfsFilename huEnv plEnv fs
            with h | h | h <;> rw [h5] at h <;> exact absurd h (by decide)
  | other =>
    refine ⟨?_, ?_, ?_, ?_, ?_, ?_, ?_, ?_, ?_⟩
    · intro hpm
      exact absurd hpm (by decide)
    · intro hpm
      exact absurd hpm (by decide)
    · intro hpm
      exact absurd hpm (by decide)
    · intro hpm
      exact absurd hpm (by decide)
    · intro hpm
      exact absurd hpm (by decide)
    · intro hpm
      exact absurd hpm (by decide)
    · intro hpm
      exact absurd hpm (by decide)
    · intro hpm
      exact absurd hpm (by decide)
    · intro h500
      have h5 : (uploadFileCore cfg [] 0 [] [] ns vfsFilename huEnv plEnv fs).1.code = 500 :=
        h500
      rcases uploadFileCore_code_cases cfg [] 0 [] [] ns vfsFilename huEnv plEnv fs
        with h | h | h <;> rw [h5] at h <;> exact absurd h (by decide)

/-- Witness for C3 as amended: a POST within the size limit whose publish
fails at the copy step is answered with 400, and a POST whose multipart
parse fails carries the parse error with its 500. -/
theorem uploadFile_status_mapping_spot :
    (uploadFile ⟨100, ['r'], ['w'], [], ['f'], false⟩
        ⟨.post, 0, [], ⟨true, true, 3, ['a', '.', 'p', 'n', 'g'], [1, 2, 3]⟩⟩
        [] [] ⟨true, ['x'], true, false, 0, true, true, true, true⟩ ⟨true, true, true, 0, true⟩
        ⟨[], []⟩).1.code = 400 ∧
    (uploadFile ⟨100, ['r'], ['w'], [], ['f'], false⟩
        ⟨.post, 0, [], ⟨false, true, 0, [], []⟩⟩
        [] [] ⟨true, ['x'], true, true, 0, true, true, true, true⟩ ⟨true, true, true, 0, true⟩
        ⟨[], []⟩).1.error = some GoError.parseFormErr :=
  ⟨(uploadFile_status_mapping _ _ _ _ _ _ _).2.2.2.2.1 rfl rfl rfl (by decide) rfl (by decide),
   ((uploadFile_status_mapping _ _ _ _ _ _ _).2.2.2.2.2.2.2.2 (by decide)).2.2⟩

/-! ### Claims about `createFile` -/

/-- Claim C2 (refuted): a `createFile` run in which the file opens but the
`Stat` size query fails does NOT abort — the run succeeds, and the record
is still persisted, with the byte size defaulted to 0. -/
theorem createFile_stat_failure_no_abort :
    (createFile ⟨100, ['r'], ['w'], [], ['f'], false⟩ 1 [] ['t'] ['n'] ['p', 'n', 'g']
        ⟨true, some (3, 4), false, true, some ['i', 'm', 'g'], some 9, [],
          ['2', '0', '2', '6', '1', '0'], true, true, true, 5⟩
        ⟨[(['r', '/', 't'], [1, 2, 3])], []⟩).err = none ∧
    (createFile ⟨100, ['r'], ['w'], [], ['f'], false⟩ 1 [] ['t'] ['n'] ['p', 'n', 'g']
        ⟨true, some (3, 4), false, true, some ['i', 'm', 'g'], some 9, [],
          ['2', '0', '2', '6', '1', '0'], true, true, true, 5⟩
        ⟨[(['r', '/', 't'], [1, 2, 3])], []⟩).id = 9 ∧
    (createFile ⟨100, ['r'], ['w'], [], ['f'], false⟩ 1 [] ['t'] ['n'] ['p', 'n', 'g']
        ⟨true, some (3, 4), false, true, some ['i', 'm', 'g'], some 9, [],
          ['2', '0', '2', '6', '1', '0'], true, true, true, 5⟩
        ⟨[(['r', '/', 't'], [1, 2, 3])], []⟩).record.isSome = true ∧
    ((createFile ⟨100, ['r'], ['w'], [], ['f'], false⟩ 1 [] ['t'] ['n'] ['p', 'n', 'g']
        ⟨true, some (3, 4), false, true, some ['i', 'm', 'g'], some 9, [],
          ['2', '0', '2', '6', '1', '0'], true, true, true, 5⟩
        ⟨[(['r', '/', 't'], [1, 2, 3])], []⟩).record.map VfsFile.fileSize) = some 0 := by
  refine ⟨?_, ?_, ?_, ?_⟩ <;> decide

/-- Claim C2 as amended: all three metadata extractions in `createFile`
are best-effort — failure of the image decode or of MIME sniffing leaves
the dimensions omitted and the MIME type empty, and failure of the open
or of the `Stat` size query likewise does not abort but defaults the size
to 0; the record is constructed and persisted whenever ID allocation, the
move and the insert succeed. -/
theorem createFile_metadata_best_effort (cfg : Config) (folderID : Nat)
    (ns relFilename name ext : GoStr) (env : CreateEnv) (fs : FS) (id : Nat)
    (hid : env.nextID = some id) (hmk : env.moveMkdirOk = true) (hrn : env.moveRenameOk = true)
    (hadd : env.addOk = true) :
    (createFile cfg folderID ns relFilename name ext env fs).err = none ∧
    (createFile cfg folderID ns relFilename name ext env fs).id = id ∧
    (createFile cfg folderID ns relFilename name ext env fs).record.isSome = true ∧
    ((env.openOk = false ∨ env.statOk = false) →
      (createFile cfg folderID ns relFilename name ext env fs).record.map VfsFile.fileSize =
        some 0) ∧
    ((env.openOk = false ∨ env.decodeDims = none) →
      ((createFile cfg folderID ns relFilename name ext env fs).record.bind VfsFile.params) =
        none) ∧
    ((env.openOk = false ∨ env.seekOk = false ∨ env.mimeOut = none) →
      (createFile cfg folderID ns relFilename name ext env fs).record.map VfsFile.mimeType =
        some []) := by
  obtain ⟨openOk, dims, statOk, seekOk, mime, nid, ss, ym, mvk, mvr, addOk, now⟩ := env
  simp only at hid hmk hrn hadd ⊢
  subst hid
  subst hmk
  subst hrn
  subst hadd
  cases openOk <;> cases statOk <;> cases seekOk <;>
    simp [createFile, Move] <;> rintro rfl <;> rfl

/-- Witness for C2 as amended: open succeeds but decode, `Stat` and the
MIME sniff all fail; the record is still persisted with size 0, no
dimensions and an empty MIME type. -/
theorem createFile_metadata_best_effort_spot :
    (createFile ⟨100, ['r'], ['w'], [], ['f'], false⟩ 1 [] ['t'] ['n'] ['p', 'n', 'g']
        ⟨true, none, false, false, none, some 9, [], ['2', '0', '2', '6', '1', '0'],
          true, true, true, 5⟩ ⟨[(['r', '/', 't'], [1, 2, 3])], []⟩).err = none ∧
    ((createFile ⟨100, ['r'], ['w'], [], ['f'], false⟩ 1 [] ['t'] ['n'] ['p', 'n', 'g']
        ⟨true, none, false, false, none, some 9, [], ['2', '0', '2', '6', '1', '0'],
          true, true, true, 5⟩ ⟨[(['r', '/', 't'], [1, 2, 3])], []⟩).record.bind
      VfsFile.params) = none :=
  ⟨(createFile_metadata_best_effort _ _ _ _ _ _ _ _ _ rfl rfl rfl rfl).1,
   (createFile_metadata_best_effort _ _ _ _ _ _ _ _ _ rfl rfl rfl rfl).2.2.2.2.1
     (Or.inr rfl)⟩

/-! ### Digits of the composed filename -/

theorem natCharsAux_chars {P : Char → Prop} (hP : ∀ k, k < 10 → P (Char.ofNat (48 + k))) :
    ∀ (fuel n : Nat) (acc : GoStr), (∀ c ∈ acc, P c) → ∀ c ∈ natCharsAux fuel n acc, P c := by
  intro fuel
  induction fuel with
  | zero => exact fun n acc hacc c hc => hacc c hc
  | succ f ih =>
    intro n acc hacc c hc
    rw [natCharsAux] at hc
    by_cases h : n < 10
    · rw [if_pos h] at hc
      rcases List.mem_cons.mp hc with rfl | hmem
      · exact hP n h
      · exact hacc c hmem
    · rw [if_neg h] at hc
      refine ih (n / 10) _ ?_ c hc
      intro d hd
      rcases List.mem_cons.mp hd with rfl | hmem
      · exact hP (n % 10) (Nat.mod_lt n (by omega))
      · exact hacc d hmem

theorem natChars_no_slash_dot (n : Nat) : ∀ c ∈ natChars n, c ≠ '/' ∧ c ≠ '.' :=
  natCharsAux_chars (by decide) (n + 1) n [] (by simp)

/-- Claim C9: when the temp file has already been moved to its final
computed path `<yearMonth>/<folderID>_<fileID>[_<salt>].<ext>` and
persisting the record then fails, `createFile` reports the failure and
returns no record, yet no compensating rollback happens: the bytes remain
discoverable at the final path. -/
theorem createFile_orphan_on_persist_failure (cfg : Config) (folderID : Nat)
    (ns relFilename name ext : GoStr) (env : CreateEnv) (fs : FS) (id : Nat) (content : Bytes)
    (hid : env.nextID = some id) (hmk : env.moveMkdirOk = true) (hrn : env.moveRenameOk = true)
    (hadd : env.addOk = false)
    (hsrc : fsLookup (vfsPath cfg ns relFilename) fs.files = some content)
    (hym : plainSeg env.yearMonth)
    (hsalt : ∀ c ∈ env.saltSeq, c ≠ '/') (hext : ∀ c ∈ ext, c ≠ '/') :
    (createFile cfg folderID ns relFilename name ext env fs).err = some .addFileErr ∧
    (createFile cfg folderID ns relFilename name ext env fs).record = none ∧
    fsLookup
      (vfsPath cfg ns (env.yearMonth ++ '/' ::
        (natChars folderID ++ '_' :: (natChars id ++
          (if cfg.saltedFilenames then '_' :: env.saltSeq else []) ++ '.' :: ext))))
      (createFile cfg folderID ns relFilename name ext env fs).fs.files = some content := by
  have hfplain : plainSeg (natChars folderID ++ '_' :: (natChars id ++
      (if cfg.saltedFilenames then '_' :: env.saltSeq else []) ++ '.' :: ext)) := by
    have hu : '_' ∈ natChars folderID ++ '_' :: (natChars id ++
        (if cfg.saltedFilenames then '_' :: env.saltSeq else []) ++ '.' :: ext) :=
      List.mem_append_right _ (List.mem_cons_self _ _)
    refine ⟨?_, ?_, ?_, ?_⟩
    · intro he; rw [he] at hu; cases hu
    · intro he; rw [he] at hu; simp at hu
    · intro he; rw [he] at hu; simp at hu
    · intro c hc
      rcases List.mem_append.mp hc with hc1 | hc2
      · exact (natChars_no_slash_dot folderID c hc1).1
      rcases List.mem_cons.mp hc2 with rfl | hc3
      · decide
      rcases List.mem_append.mp hc3 with hc4 | hc5
      · rcases List.mem_append.mp hc4 with hc6 | hc7
        · exact (natChars_no_slash_dot id c hc6).1
        · rcases hsf : cfg.saltedFilenames with _ | _
          · rw [hsf] at hc7; cases hc7
          · rw [hsf] at hc7
            rcases List.mem_cons.mp hc7 with rfl | hc8
            · decide
            · exact hsalt c hc8
      · rcases List.mem_cons.mp hc5 with rfl | hc9
        · decide
        · exact hext c hc9
  have hrel := goFilepathJoin_pair env.yearMonth _ hym hfplain
  obtain ⟨openOk, dims, statOk, seekOk, mime, nid, ss, ym, mvk, mvr, addOk, now⟩ := env
  simp only at hid hmk hrn hadd hrel ⊢
  subst hid
  subst hmk
  subst hrn
  subst hadd
  refine ⟨by simp [createFile, Move], by simp [createFile, Move], ?_⟩
  rw [← hrel]
  simp only [createFile, Move]
  rw [hsrc]
  exact fsLookup_set _ _ _

/-- Witness for C9: a salted foldered upload whose record insert fails
after the move; the bytes stay at `202610/1_9_ab.png` under the root. -/
theorem createFile_orphan_on_persist_failure_spot :
    (createFile ⟨100, ['r'], ['w'], [], ['f'], true⟩ 1 [] ['t'] ['n'] ['p', 'n', 'g']
        ⟨true, none, true, true, none, some 9, ['a', 'b'], ['2', '0', '2', '6', '1', '0'],
          true, true, false, 0⟩ ⟨[(['r', '/', 't'], [7, 8])], []⟩).err = some .addFileErr ∧
    (createFile ⟨100, ['r'], ['w'], [], ['f'], true⟩ 1 [] ['t'] ['n'] ['p', 'n', 'g']
        ⟨true, none, true, true, none, some 9, ['a', 'b'], ['2', '0', '2', '6', '1', '0'],
          true, true, false, 0⟩ ⟨[(['r', '/', 't'], [7, 8])], []⟩).record = none ∧
    fsLookup
      (vfsPath ⟨100, ['r'], ['w'], [], ['f'], true⟩ []
        (('2' :: '0' :: '2' :: '6' :: '1' :: '0' :: []) ++ '/' ::
          (natChars 1 ++ '_' :: (natChars 9 ++
            (if (true : Bool) then '_' :: ['a', 'b'] else []) ++ '.' :: ['p', 'n', 'g']))))
      (createFile ⟨100, ['r'], ['w'], [], ['f'], true⟩ 1 [] ['t'] ['n'] ['p', 'n', 'g']
        ⟨true, none, true, true, none, some 9, ['a', 'b'], ['2', '0', '2', '6', '1', '0'],
          true, true, false, 0⟩ ⟨[(['r', '/', 't'], [7, 8])], []⟩).fs.files = some [7, 8] :=
  createFile_orphan_on_persist_failure _ _ _ _ _ _ _ _ _ _ rfl rfl rfl rfl (by decide)
    (by refine ⟨by decide, by decide, by decide, ?_⟩; decide) (by decide) (by decide)
